import Mathlib

/-!
Verification development for the OFFER_LIVE_BACKEND offer lifecycle engine.

The model is a shallow embedding of `offer_app/serializers.py`,
`offer_app/views.py` and `offer_app/models.py`:

* Calendar dates are modelled as natural numbers (day index in the fixed
  IST civil calendar); times of day are natural numbers (minutes since
  midnight), matching the code which zeroes seconds and microseconds and
  compares at minute granularity.
* Statuses are the literal strings used by the code
  ("active", "inactive", "scheduled", "expired").
* Django querysets with `.filter(...).update(...)` are row-local
  conditional updates, embedded as `List.map` of a per-row function;
  the three statements of `auto_expire_offers` run sequentially.
-/

/-- A branch row (`BranchMaster`): only the fields the discovery filter
reads (`id`, `location`, `city`). -/
structure Branch where
  id : Nat
  location : String
  city : String
deriving DecidableEq

/-- An `OfferMaster` row: stored administrative status, inclusive validity
date range, optional daily time window, branch assignments. -/
structure OfferMaster where
  id : Nat
  status : String
  valid_from : Nat
  valid_to : Nat
  offer_start_time : Option Nat
  offer_end_time : Option Nat
  branches : List Branch
  created_at : Nat
deriving DecidableEq

/-- `OfferMaster.STATUS_CHOICES` (models.py): the three storable values. -/
def STATUS_CHOICES : List String := ["active", "inactive", "scheduled"]

/-- `OfferMasterSerializer.get_computed_status` (serializers.py lines
421-449): the live effective status of an offer at local date `today`
and minute-of-day `now_time`. -/
def get_computed_status (o : OfferMaster) (today now_time : Nat) : String :=
  if o.status = "inactive" then "inactive"
  else if today < o.valid_from then "scheduled"
  else if o.valid_to < today then "inactive"
  else
    match o.offer_start_time, o.offer_end_time with
    | some s, some e =>
        if now_time < s then "scheduled"
        else if e < now_time then "expired"
        else "active"
    | _, _ => "active"

/-- The per-row effect of the first statement of `auto_expire_offers`
(views.py line 49): offers whose date range has fully elapsed and that
are not already inactive are stored as inactive. -/
def phase1 (today : Nat) (o : OfferMaster) : OfferMaster :=
  if o.valid_to < today ∧ o.status ≠ "inactive" then { o with status := "inactive" } else o

/-- The per-row effect of the second statement of `auto_expire_offers`
(views.py line 50): offers whose date range has not started and that are
not inactive are stored as scheduled. -/
def phase2 (today : Nat) (o : OfferMaster) : OfferMaster :=
  if today < o.valid_from ∧ o.status ≠ "inactive" then { o with status := "scheduled" } else o

/-- The candidate status computed inside the `for offer in in_range` loop
of `auto_expire_offers` (views.py lines 57-66). Note the window-closed
case stores "inactive", not "expired". -/
def in_range_new_status (now_time : Nat) (o : OfferMaster) : String :=
  match o.offer_start_time, o.offer_end_time with
  | some s, some e =>
      if now_time < s then "scheduled"
      else if e < now_time then "inactive"
      else "active"
  | _, _ => "active"

/-- The per-row effect of the in-range loop of `auto_expire_offers`
(views.py lines 52-70): in-range, not-inactive offers get the candidate
status (the code saves only when it differs, which is state-equivalent). -/
def phase3 (today now_time : Nat) (o : OfferMaster) : OfferMaster :=
  if o.valid_from ≤ today ∧ today ≤ o.valid_to ∧ o.status ≠ "inactive"
  then { o with status := in_range_new_status now_time o } else o

/-- The full per-row effect of one `auto_expire_offers` pass: the three
statements run sequentially and are row-local, so the pass factors
through this composition. -/
def syncStep (today now_time : Nat) (o : OfferMaster) : OfferMaster :=
  phase3 today now_time (phase2 today (phase1 today o))

/-- `auto_expire_offers` (views.py lines 44-70), as a function on the
whole offer table. -/
def auto_expire_offers (today now_time : Nat) (offers : List OfferMaster) : List OfferMaster :=
  offers.map (syncStep today now_time)

/-- The number of offers whose stored status a synchronization pass
changes. The code discards the row counts, so the spec contract
`synchronize -> count_of_updates` is modelled as the number of rows whose
stored value differs after the pass (the way section 4.2 counts: persist
only if different). -/
def auto_expire_count (today now_time : Nat) (offers : List OfferMaster) : Nat :=
  (offers.filter (fun o => (syncStep today now_time o).status ≠ o.status)).length

/-- The ordered reference definition of effective status for a
not-manually-inactive offer, transcribed from spec section 4.1 steps 2-5
(this is the spec-side definition for the refinement claim C1; compare
with `get_computed_status`, which comes from the source). -/
def spec_effective_status (o : OfferMaster) (today now_time : Nat) : String :=
  if today < o.valid_from then "scheduled"
  else if o.valid_to < today then "inactive"
  else
    match o.offer_start_time, o.offer_end_time with
    | some s, some e =>
        if now_time < s then "scheduled"
        else if e < now_time then "expired"
        else "active"
    | _, _ => "active"

/-- The status written for a row by one pass, as a single case split
(phase 1 runs before phase 2, so the elapsed-range case wins when both
date conditions hold). -/
def syncStatus (today now_time : Nat) (o : OfferMaster) : String :=
  if o.status = "inactive" then "inactive"
  else if o.valid_to < today then "inactive"
  else if today < o.valid_from then "scheduled"
  else in_range_new_status now_time o

-- ---------------------------------------------------------------------
-- Administrative operations (claim C6)
-- ---------------------------------------------------------------------

/-- An administrative operation on the offer table: creation through the
create endpoint (status validated against `STATUS_CHOICES` by the
serializer choice field), a status edit through the update endpoint
(same validation), or a synchronization pass. -/
inductive Op where
  | create : OfferMaster → Op
  | setStatus : Nat → String → Op
  | syncPass : Nat → Nat → Op

/-- Apply one operation. Creations and edits with a status outside
`STATUS_CHOICES` are rejected by serializer validation and leave the
table unchanged. -/
def applyOp (offers : List OfferMaster) : Op → List OfferMaster
  | Op.create o => if o.status ∈ STATUS_CHOICES then offers ++ [o] else offers
  | Op.setStatus i s =>
      if s ∈ STATUS_CHOICES then
        offers.map (fun o => if o.id = i then { o with status := s } else o)
      else offers
  | Op.syncPass t nt => auto_expire_offers t nt offers

/-- Apply a sequence of operations starting from a given table. -/
def applyOps (ops : List Op) (offers : List OfferMaster) : List OfferMaster :=
  ops.foldl applyOp offers

-- ---------------------------------------------------------------------
-- Discovery filter (claims C4, C9)
-- ---------------------------------------------------------------------

/-- Django `icontains`: case-insensitive substring match. -/
def icontains (hay needle : String) : Bool :=
  decide ((needle.data.map Char.toLower) <:+: (hay.data.map Char.toLower))

/-- The base queryset of `discover_offers` (views.py lines 747-750): run
the synchronization pass, then keep date-valid offers whose stored
status is not "inactive". -/
def discoverBase (today now_time : Nat) (offers : List OfferMaster) : List OfferMaster :=
  (auto_expire_offers today now_time offers).filter
    (fun o => decide (o.valid_from ≤ today ∧ today ≤ o.valid_to ∧ o.status ≠ "inactive"))

/-- `discover_offers` (views.py lines 741-762): the `if branch_id / elif
location / elif city` chain applies exactly one filter, then
`.distinct()` deduplicates (modelled with `List.dedup`; ordering by
newest-created-first is not relevant to the claims and is modelled as
the stable list order). -/
def discover_offers (branch_id : Option Nat) (location city : Option String)
    (today now_time : Nat) (offers : List OfferMaster) : List OfferMaster :=
  ((match branch_id, location, city with
    | some b, _, _ =>
        (discoverBase today now_time offers).filter
          (fun o => o.branches.any (fun br => br.id == b))
    | none, some l, _ =>
        (discoverBase today now_time offers).filter
          (fun o => o.branches.any (fun br => icontains br.location l))
    | none, none, some c =>
        (discoverBase today now_time offers).filter
          (fun o => o.branches.any (fun br => icontains br.city c))
    | none, none, none => discoverBase today now_time offers : List OfferMaster)).dedup

-- ---------------------------------------------------------------------
-- Read paths and synchronization failure (claim C7)
-- ---------------------------------------------------------------------

/-- Outcome of an HTTP read path: a successful response carrying data,
or a failed request (an unhandled exception or an error response). -/
inductive ReadResult (α : Type) where
  | ok : α → ReadResult α
  | error : ReadResult α
deriving DecidableEq

/-- `get_branch_offers` (views.py lines 697-710). `auto_expire_offers()`
is called before the `try` block, so a storage failure during the pass
propagates and the request fails; on success the view returns the
branch's offers whose stored status is "active". `syncOk` models whether
the pass's writes succeed. -/
def get_branch_offers (syncOk : Bool) (branchId : Nat) (today now_time : Nat)
    (offers : List OfferMaster) : ReadResult (List OfferMaster) :=
  if syncOk then
    ReadResult.ok
      ((auto_expire_offers today now_time offers).filter
        (fun o => o.branches.any (fun br => br.id == branchId) && o.status == "active"))
  else ReadResult.error

/-- The `discover_offers` request handler (views.py lines 741-762): the
whole body, including the synchronization pass, sits inside `try`, and
the `except` arm returns an error response (HTTP 500), not data. -/
def discover_offers_req (syncOk : Bool) (branch_id : Option Nat) (location city : Option String)
    (today now_time : Nat) (offers : List OfferMaster) : ReadResult (List OfferMaster) :=
  if syncOk then
    ReadResult.ok (discover_offers branch_id location city today now_time offers)
  else ReadResult.error

-- ---------------------------------------------------------------------
-- Creation / update validation (claim C8)
-- ---------------------------------------------------------------------

/-- The validated input fields of `OfferMasterCreateUpdateSerializer`
relevant to the date/time rules. -/
structure OfferInput where
  valid_from : Option Nat
  valid_to : Option Nat
  offer_start_time : Option Nat
  offer_end_time : Option Nat
deriving DecidableEq

/-- The hourly-window checks of `validate` (serializers.py lines
497-512): both times must be supplied together and the end must be
strictly after the start. -/
def validateTimes (d : OfferInput) : Except String OfferInput :=
  match d.offer_start_time, d.offer_end_time with
  | some s, some e =>
      if e ≤ s then Except.error "Offer end time must be after start time."
      else Except.ok d
  | some _, none => Except.error "Please provide an end time when start time is set."
  | none, some _ => Except.error "Please provide a start time when end time is set."
  | none, none => Except.ok d

/-- `OfferMasterCreateUpdateSerializer.validate` (serializers.py lines
490-537): reject when `valid_to < valid_from` (when both are supplied),
then run the hourly-window checks. The file and branch-id checks touch
collaborators outside this model. -/
def validate (d : OfferInput) : Except String OfferInput :=
  match d.valid_from, d.valid_to with
  | some vf, some vt =>
      if vt < vf then Except.error "End date must be on or after start date."
      else validateTimes d
  | _, _ => validateTimes d

/-- Whether serializer validation accepts the input. -/
def isAccepted (d : OfferInput) : Bool :=
  match validate d with
  | Except.ok _ => true
  | Except.error _ => false

/-- A well-formed daily window: absent, or present on both sides with
start strictly before end. -/
def windowOk (d : OfferInput) : Bool :=
  match d.offer_start_time, d.offer_end_time with
  | none, none => true
  | some s, some e => decide (s < e)
  | _, _ => false

/-- The create flow (views.py lines 548-574): `is_valid(raise_exception
=True)` runs `validate` (and the required-field checks on the two
dates); only on success is the offer persisted. Returns the new table
and whether a row was persisted. -/
def createOffer (offers : List OfferMaster) (d : OfferInput) (newId : Nat)
    (stat : String) (br : List Branch) (ca : Nat) : List OfferMaster × Bool :=
  match validate d, d.valid_from, d.valid_to with
  | Except.ok _, some vf, some vt =>
      (offers ++ [{ id := newId, status := stat, valid_from := vf, valid_to := vt,
                    offer_start_time := d.offer_start_time,
                    offer_end_time := d.offer_end_time,
                    branches := br, created_at := ca }], true)
  | _, _, _ => (offers, false)

-- ---------------------------------------------------------------------
-- Concrete records used by witnesses and counterexamples
-- ---------------------------------------------------------------------

/-- A daily-window offer (15:00-17:00, minutes 900-1020) valid on days
10 to 20, used for the C3 scenario. -/
def c3Offer : OfferMaster :=
  { id := 3, status := "active", valid_from := 10, valid_to := 20,
    offer_start_time := some 900, offer_end_time := some 1020,
    branches := [], created_at := 0 }

/-- A branch for the discovery scenarios. -/
def b4 : Branch := { id := 7, location := "MG Road Kochi", city := "Kochi" }

/-- A daily-window offer assigned to branch `b4`, for the C4 scenario. -/
def c4Offer : OfferMaster :=
  { id := 4, status := "active", valid_from := 10, valid_to := 20,
    offer_start_time := some 900, offer_end_time := some 1020,
    branches := [b4], created_at := 0 }

/-- An all-day in-range offer, for the C4 witness. -/
def w4Offer : OfferMaster :=
  { id := 40, status := "active", valid_from := 10, valid_to := 20,
    offer_start_time := none, offer_end_time := none,
    branches := [b4], created_at := 0 }

/-- An all-day offer for the C6 witness. -/
def w6a : OfferMaster :=
  { id := 61, status := "active", valid_from := 0, valid_to := 100,
    offer_start_time := none, offer_end_time := none,
    branches := [], created_at := 0 }

/-- A daily-window offer for the C6 witness. -/
def w6b : OfferMaster :=
  { id := 62, status := "active", valid_from := 10, valid_to := 20,
    offer_start_time := some 900, offer_end_time := some 1020,
    branches := [], created_at := 0 }

/-- A stored-inactive offer whose date range is in the future, for the
C10 witness. -/
def w10 : OfferMaster :=
  { id := 100, status := "inactive", valid_from := 50, valid_to := 60,
    offer_start_time := some 900, offer_end_time := some 1020,
    branches := [], created_at := 0 }

/-- An input with `valid_to` before `valid_from`, for the C8 witness. -/
def d8bad : OfferInput :=
  { valid_from := some 5, valid_to := some 3,
    offer_start_time := none, offer_end_time := none }

/-- A single-day input with a well-formed window, for the C8 witness. -/
def d8good : OfferInput :=
  { valid_from := some 5, valid_to := some 5,
    offer_start_time := some 900, offer_end_time := some 1020 }

-- ---------------------------------------------------------------------
-- Helper lemmas about one synchronization step
-- ---------------------------------------------------------------------

lemma in_range_new_status_update (now_time : Nat) (o : OfferMaster) (s : String) :
    in_range_new_status now_time { o with status := s } = in_range_new_status now_time o := by
  cases o
  simp [in_range_new_status]

lemma syncStep_eq_update (t nt : Nat) (o : OfferMaster) :
    syncStep t nt o = { o with status := syncStatus t nt o } := by
  obtain ⟨i, st, vf, vt, os, oe, br, ca⟩ := o
  simp only [syncStep, phase1, phase2, phase3, syncStatus]
  by_cases h1 : st = "inactive"
  · simp [h1]
  · by_cases h2 : vt < t
    · have h3 : ¬ t ≤ vt := by omega
      simp [h1, h2, h3]
    · by_cases h4 : t < vf
      · have h5 : ¬ vf ≤ t := by omega
        simp [h1, h2, h4, h5]
      · have h6 : vf ≤ t := by omega
        have h7 : t ≤ vt := by omega
        simp [h1, h2, h4, h6, h7, in_range_new_status_update]

lemma syncStatus_update (t nt : Nat) (o : OfferMaster) (s : String) :
    syncStatus t nt { o with status := s } =
      if s = "inactive" then "inactive"
      else if o.valid_to < t then "inactive"
      else if t < o.valid_from then "scheduled"
      else in_range_new_status nt o := by
  cases o
  simp [syncStatus, in_range_new_status]

lemma in_range_new_status_mem (nt : Nat) (o : OfferMaster) :
    in_range_new_status nt o = "scheduled" ∨ in_range_new_status nt o = "inactive" ∨
      in_range_new_status nt o = "active" := by
  unfold in_range_new_status
  rcases o.offer_start_time with _ | s <;> rcases o.offer_end_time with _ | e <;> simp
  split_ifs <;> simp_all

lemma syncStatus_idem (t nt : Nat) (o : OfferMaster) :
    syncStatus t nt { o with status := syncStatus t nt o } = syncStatus t nt o := by
  rw [syncStatus_update]
  unfold syncStatus
  by_cases h1 : o.status = "inactive"
  · simp [h1]
  · by_cases h2 : o.valid_to < t
    · simp [h1, h2]
    · by_cases h3 : t < o.valid_from
      · simp [h1, h2, h3]
      · simp only [h1, h2, h3, if_neg, if_false]
        rcases in_range_new_status_mem nt o with h | h | h <;> simp [h, h2, h3]

lemma syncStep_idem (t nt : Nat) (o : OfferMaster) :
    syncStep t nt (syncStep t nt o) = syncStep t nt o := by
  have h1 := syncStep_eq_update t nt o
  have h2 := syncStep_eq_update t nt { o with status := syncStatus t nt o }
  rw [h1, h2, syncStatus_idem]

lemma syncStep_inactive (t nt : Nat) (o : OfferMaster) (h : o.status = "inactive") :
    syncStep t nt o = o := by
  rw [syncStep_eq_update]
  unfold syncStatus
  rw [if_pos h]
  cases o
  simp_all

-- ---------------------------------------------------------------------
-- Claim theorems C1, C2
-- ---------------------------------------------------------------------

/-- C1: for every offer whose administrative status is not "inactive",
`get_computed_status` agrees with the ordered reference definition of
spec section 4.1 (scheduled before the range, inactive after it, active
with no window, and scheduled / expired / active around an inclusive
daily window). -/
theorem C1_effective_status_matches_spec (o : OfferMaster) (today now_time : Nat)
    (h : o.status ≠ "inactive") :
    get_computed_status o today now_time = spec_effective_status o today now_time := by
  unfold get_computed_status spec_effective_status
  rw [if_neg h]

/-- C1 witness: a concrete in-range offer evaluated exactly at its daily
end boundary, where both definitions yield "active". -/
theorem C1_witness :
    get_computed_status
        { id := 1, status := "active", valid_from := 10, valid_to := 20,
          offer_start_time := some 900, offer_end_time := some 1020,
          branches := [], created_at := 0 } 15 1020 =
      spec_effective_status
        { id := 1, status := "active", valid_from := 10, valid_to := 20,
          offer_start_time := some 900, offer_end_time := some 1020,
          branches := [], created_at := 0 } 15 1020 :=
  C1_effective_status_matches_spec _ 15 1020 (by decide)

/-- C2: a manually inactive offer has effective status "inactive" for
every date and time of day; the override wins over all date and window
logic. -/
theorem C2_manual_inactive_override (o : OfferMaster) (today now_time : Nat)
    (h : o.status = "inactive") :
    get_computed_status o today now_time = "inactive" := by
  unfold get_computed_status
  rw [if_pos h]

/-- C2 witness: an inactive offer that would otherwise be active (in
range, inside its window) still reads "inactive". -/
theorem C2_witness :
    get_computed_status
        { id := 2, status := "inactive", valid_from := 10, valid_to := 20,
          offer_start_time := some 900, offer_end_time := some 1020,
          branches := [], created_at := 0 } 15 960 = "inactive" :=
  C2_manual_inactive_override _ 15 960 rfl

lemma syncStep_fields (t nt : Nat) (x : OfferMaster) :
    (syncStep t nt x).valid_from = x.valid_from ∧
    (syncStep t nt x).valid_to = x.valid_to ∧
    (syncStep t nt x).offer_start_time = x.offer_start_time ∧
    (syncStep t nt x).offer_end_time = x.offer_end_time ∧
    (syncStep t nt x).status = syncStatus t nt x := by
  rw [syncStep_eq_update]
  cases x
  simp

-- ---------------------------------------------------------------------
-- Claim theorems C3, C5, C10
-- ---------------------------------------------------------------------

/-- C3 (code evaluation at the failing input): `c3Offer` reads "expired"
at 18:00 on day 10; without an intervening pass it reads "active" again
at 16:00 on day 11; but if the synchronization pass runs at 18:00 on day
10 it stores "inactive", and the day-11 read then yields "inactive"
forever instead of "active" — the persisted value is indistinguishable
from a manual override, so the window never reopens. -/
theorem C3_sync_makes_expired_permanent :
    get_computed_status c3Offer 10 1080 = "expired" ∧
    (syncStep 10 1080 c3Offer).status = "inactive" ∧
    get_computed_status c3Offer 11 960 = "active" ∧
    get_computed_status (syncStep 10 1080 c3Offer) 11 960 = "inactive" := by
  decide

/-- C5: the synchronization pass is idempotent at a fixed clock reading:
a second consecutive pass leaves every stored status unchanged and its
count of updates (rows whose stored status changes) is zero. -/
theorem C5_sync_idempotent (today now_time : Nat) (offers : List OfferMaster) :
    auto_expire_offers today now_time (auto_expire_offers today now_time offers) =
      auto_expire_offers today now_time offers ∧
    auto_expire_count today now_time (auto_expire_offers today now_time offers) = 0 := by
  constructor
  · unfold auto_expire_offers
    rw [List.map_map]
    apply List.map_congr_left
    intro o _
    exact syncStep_idem today now_time o
  · unfold auto_expire_count auto_expire_offers
    rw [List.length_eq_zero]
    rw [List.filter_eq_nil_iff]
    intro o ho
    obtain ⟨x, _, rfl⟩ := List.mem_map.mp ho
    simp [syncStep_idem]

/-- C10: a stored "inactive" status is absorbing under synchronization:
the pass never touches an inactive row, whatever its dates or window,
so it is never resurrected to "scheduled" or "active". -/
theorem C10_stored_inactive_absorbing (today now_time : Nat) (o : OfferMaster)
    (h : o.status = "inactive") :
    syncStep today now_time o = o ∧
    ∀ offers : List OfferMaster, o ∈ offers →
      o ∈ auto_expire_offers today now_time offers := by
  refine ⟨syncStep_inactive today now_time o h, ?_⟩
  intro offers ho
  unfold auto_expire_offers
  exact List.mem_map.mpr ⟨o, ho, syncStep_inactive today now_time o h⟩

/-- C10 witness: an inactive offer with a future date range passes
through a synchronization pass unchanged. -/
theorem C10_witness :
    syncStep 10 960 w10 = w10 ∧ w10 ∈ auto_expire_offers 10 960 [w10] :=
  ⟨(C10_stored_inactive_absorbing 10 960 w10 rfl).1,
   (C10_stored_inactive_absorbing 10 960 w10 rfl).2 [w10] (by decide)⟩

-- ---------------------------------------------------------------------
-- Claim theorems C9, C7
-- ---------------------------------------------------------------------

/-- C9: exactly one discovery filter is applied, branch over location
over city; the location and city filters are the case-insensitive
substring match on the assigned branches; the result is deduplicated. -/
theorem C9_filter_precedence (b : Nat) (l c : String) (today now_time : Nat)
    (offers : List OfferMaster) :
    (discover_offers (some b) (some l) (some c) today now_time offers =
       discover_offers (some b) none none today now_time offers) ∧
    (discover_offers (some b) (some l) none today now_time offers =
       discover_offers (some b) none none today now_time offers) ∧
    (discover_offers (some b) none (some c) today now_time offers =
       discover_offers (some b) none none today now_time offers) ∧
    (discover_offers none (some l) (some c) today now_time offers =
       discover_offers none (some l) none today now_time offers) ∧
    (discover_offers none (some l) none today now_time offers =
       ((discoverBase today now_time offers).filter
          (fun o => o.branches.any (fun br => icontains br.location l))).dedup) ∧
    (discover_offers none none (some c) today now_time offers =
       ((discoverBase today now_time offers).filter
          (fun o => o.branches.any (fun br => icontains br.city c))).dedup) ∧
    (discover_offers (some b) (some l) (some c) today now_time offers).Nodup :=
  ⟨rfl, rfl, rfl, rfl, rfl, rfl, List.nodup_dedup _⟩

/-- C7 counterexample: when the synchronization pass's writes fail, the
branch-offers read does not succeed (the exception propagates past line
698, which is outside the `try`) and the discovery read returns an error
response; neither falls back to live computation, contrary to the
claim. -/
theorem C7_counterexample :
    get_branch_offers false 7 10 600 [c4Offer] = ReadResult.error ∧
    discover_offers_req false none none none 10 600 [c4Offer] = ReadResult.error :=
  ⟨rfl, rfl⟩

/-- C7 amended: if the synchronization pass fails, both read paths fail
(the branch listing propagates the exception, discovery returns an error
response) with no in-memory fallback; when the pass succeeds, the branch
listing serves data selected by the stored status field. -/
theorem C7_sync_failure_aborts_read (branchId : Nat) (bid : Option Nat)
    (l c : Option String) (today now_time : Nat) (offers : List OfferMaster) :
    get_branch_offers false branchId today now_time offers = ReadResult.error ∧
    discover_offers_req false bid l c today now_time offers = ReadResult.error ∧
    get_branch_offers true branchId today now_time offers =
      ReadResult.ok ((auto_expire_offers today now_time offers).filter
        (fun o => o.branches.any (fun br => br.id == branchId) && o.status == "active")) :=
  ⟨rfl, rfl, rfl⟩

-- ---------------------------------------------------------------------
-- Claim C6: the stored status is three-valued
-- ---------------------------------------------------------------------

lemma syncStep_status_mem (t nt : Nat) (o : OfferMaster) :
    (syncStep t nt o).status ∈ STATUS_CHOICES := by
  rw [(syncStep_fields t nt o).2.2.2.2]
  unfold syncStatus
  split_ifs
  · decide
  · decide
  · decide
  · rcases in_range_new_status_mem nt o with h1 | h1 | h1 <;> rw [h1] <;> decide

lemma applyOp_inv (offers : List OfferMaster) (op : Op)
    (h : ∀ o ∈ offers, o.status ∈ STATUS_CHOICES) :
    ∀ o ∈ applyOp offers op, o.status ∈ STATUS_CHOICES := by
  cases op with
  | create c =>
      intro o ho
      simp only [applyOp] at ho
      split_ifs at ho with hc
      · rcases List.mem_append.mp ho with h1 | h1
        · exact h o h1
        · rw [List.mem_singleton.mp h1]
          exact hc
      · exact h o ho
  | setStatus i s =>
      intro o ho
      simp only [applyOp] at ho
      split_ifs at ho with hc
      · obtain ⟨x, hx, rfl⟩ := List.mem_map.mp ho
        by_cases hid : x.id = i
        · rw [if_pos hid]
          have : ({ x with status := s } : OfferMaster).status = s := by cases x; rfl
          rw [this]
          exact hc
        · rw [if_neg hid]
          exact h x hx
      · exact h o ho
  | syncPass t nt =>
      intro o ho
      obtain ⟨x, _, rfl⟩ := List.mem_map.mp ho
      exact syncStep_status_mem t nt x

lemma applyOps_inv (ops : List Op) (offers : List OfferMaster)
    (h : ∀ o ∈ offers, o.status ∈ STATUS_CHOICES) :
    ∀ o ∈ applyOps ops offers, o.status ∈ STATUS_CHOICES := by
  induction ops generalizing offers with
  | nil => exact h
  | cons op rest ih =>
      have : applyOps (op :: rest) offers = applyOps rest (applyOp offers op) := rfl
      rw [this]
      exact ih (applyOp offers op) (applyOp_inv offers op h)

/-- C6: after any sequence of creations, administrative edits and
synchronization passes starting from an empty table, every stored status
is one of the three storable values — "expired" (not among them) is
never persisted; and the pass stores "inactive" for an in-range offer
whose well-formed daily window has closed for the day. -/
theorem C6_stored_status_three_valued :
    ("expired" ∉ STATUS_CHOICES) ∧
    (∀ ops : List Op, ∀ o ∈ applyOps ops [], o.status ∈ STATUS_CHOICES) ∧
    (∀ (today now_time : Nat) (o : OfferMaster) (s e : Nat),
        o.valid_from ≤ today → today ≤ o.valid_to → o.status ≠ "inactive" →
        o.offer_start_time = some s → o.offer_end_time = some e →
        s < e → e < now_time →
        (syncStep today now_time o).status = "inactive") := by
  refine ⟨by decide, ?_, ?_⟩
  · intro ops
    exact applyOps_inv ops [] (by intro o ho; cases ho)
  · intro today now_time o s e hvf hvt hst hos hoe hwf hlt
    rw [(syncStep_fields today now_time o).2.2.2.2]
    unfold syncStatus in_range_new_status
    rw [if_neg hst, if_neg (by omega), if_neg (by omega), hos, hoe]
    simp only []
    rw [if_neg (by omega), if_pos hlt]

/-- C6 witness: a created offer synced in-window keeps a storable
status, and the pass stores "inactive" for `w6b` once its window has
closed (18:00 on day 10). -/
theorem C6_witness :
    (syncStep 10 960 w6a).status ∈ STATUS_CHOICES ∧
    (syncStep 10 1080 w6b).status = "inactive" :=
  ⟨C6_stored_status_three_valued.2.1 [Op.create w6a, Op.syncPass 10 960]
      (syncStep 10 960 w6a) (by decide),
   C6_stored_status_three_valued.2.2 10 1080 w6b 900 1020 (by decide) (by decide)
      (by decide) rfl rfl (by decide) (by decide)⟩

-- ---------------------------------------------------------------------
-- Claim C4: what discovery can return
-- ---------------------------------------------------------------------

lemma discover_subset_base (bid : Option Nat) (l c : Option String)
    (t nt : Nat) (offers : List OfferMaster) (o : OfferMaster)
    (h : o ∈ discover_offers bid l c t nt offers) : o ∈ discoverBase t nt offers := by
  unfold discover_offers at h
  have h1 := List.mem_dedup.mp h
  rcases bid with _ | b
  · rcases l with _ | lv
    · rcases c with _ | cv
      · exact h1
      · exact List.mem_of_mem_filter h1
    · exact List.mem_of_mem_filter h1
  · exact List.mem_of_mem_filter h1

/-- C4 counterexample: on day 10 at 10:00 (before the 15:00 window
opens), the synchronization pass stores "scheduled" for `c4Offer`, the
unfiltered discovery result still contains it, and its effective status
at that moment is "scheduled" — so discovery does return a
non-effectively-active offer, contrary to the claim. -/
theorem C4_counterexample :
    syncStep 10 600 c4Offer ∈ discover_offers none none none 10 600 [c4Offer] ∧
    get_computed_status (syncStep 10 600 c4Offer) 10 600 = "scheduled" := by
  decide

/-- C4 amended: every offer returned by discovery is date-valid and not
effectively "inactive" or "expired"; offers whose daily window has not
yet opened today (effective status "scheduled") can still appear, since
the view filters only on the date range and the stored status. -/
theorem C4_discovery_excludes_inactive_expired (bid : Option Nat) (l c : Option String)
    (today now_time : Nat) (offers : List OfferMaster) (o : OfferMaster)
    (h : o ∈ discover_offers bid l c today now_time offers) :
    get_computed_status o today now_time ≠ "inactive" ∧
    get_computed_status o today now_time ≠ "expired" := by
  have hbase := discover_subset_base bid l c today now_time offers o h
  unfold discoverBase at hbase
  obtain ⟨hsync, hprops⟩ := List.mem_filter.mp hbase
  have hp : o.valid_from ≤ today ∧ today ≤ o.valid_to ∧ o.status ≠ "inactive" :=
    of_decide_eq_true hprops
  obtain ⟨hvf, hvt, hst⟩ := hp
  obtain ⟨x, _, hxo⟩ := List.mem_map.mp hsync
  unfold get_computed_status
  rw [if_neg hst, if_neg (by omega), if_neg (by omega)]
  rcases hos : o.offer_start_time with _ | s <;> rcases hoe : o.offer_end_time with _ | e <;>
    simp only [hos, hoe]
  · exact ⟨by decide, by decide⟩
  · exact ⟨by decide, by decide⟩
  · exact ⟨by decide, by decide⟩
  · by_cases hns : now_time < s
    · rw [if_pos hns]
      exact ⟨by decide, by decide⟩
    · by_cases hen : e < now_time
      · exfalso
        have hf := syncStep_fields today now_time x
        have hσ : o.status = syncStatus today now_time x := by
          rw [← hxo]; exact hf.2.2.2.2
        have hvfx : x.valid_from = o.valid_from := by rw [← hxo]; exact hf.1.symm
        have hvtx : x.valid_to = o.valid_to := by rw [← hxo]; exact hf.2.1.symm
        have hxs : x.offer_start_time = some s := by
          rw [← hxo] at hos; rw [← hf.2.2.1]; exact hos
        have hxe : x.offer_end_time = some e := by
          rw [← hxo] at hoe; rw [← hf.2.2.2.1]; exact hoe
        have hinact : syncStatus today now_time x = "inactive" := by
          unfold syncStatus in_range_new_status
          by_cases h1 : x.status = "inactive"
          · rw [if_pos h1]
          · rw [if_neg h1]
            by_cases h2 : x.valid_to < today
            · rw [if_pos h2]
            · rw [if_neg h2, if_neg (by omega), hxs, hxe]
              simp only []
              rw [if_neg hns, if_pos hen]
        exact hst (hσ.trans hinact)
      · rw [if_neg hns, if_neg hen]
        exact ⟨by decide, by decide⟩

/-- C4 witness: the all-day in-range offer `w4Offer` is returned by
unfiltered discovery on day 10 at 10:00, and its effective status is
neither "inactive" nor "expired". -/
theorem C4_witness :
    get_computed_status (syncStep 10 600 w4Offer) 10 600 ≠ "inactive" ∧
    get_computed_status (syncStep 10 600 w4Offer) 10 600 ≠ "expired" :=
  C4_discovery_excludes_inactive_expired none none none 10 600 [w4Offer]
    (syncStep 10 600 w4Offer) (by decide)

-- ---------------------------------------------------------------------
-- Claim C8: creation/update validation
-- ---------------------------------------------------------------------

lemma createOffer_rejected (offers : List OfferMaster) (d : OfferInput) (newId : Nat)
    (stat : String) (br : List Branch) (ca : Nat) (h : isAccepted d = false) :
    createOffer offers d newId stat br ca = (offers, false) := by
  unfold createOffer
  unfold isAccepted at h
  rcases hv : validate d with msg | x
  · obtain ⟨vfo, vto, oso, oeo⟩ := d
    rcases vfo with _ | vf <;> rcases vto with _ | vt <;> simp [hv]
  · rw [hv] at h
    simp at h

/-- C8: `validate` rejects inputs whose `valid_to` precedes `valid_from`,
inputs supplying only one of the two daily times, and inputs whose end
time is not strictly after the start time, and a rejected input is not
persisted by the create flow; a single-day input (`valid_from` equal to
`valid_to`) with a well-formed window is accepted. -/
theorem C8_validation_rules (d : OfferInput) (offers : List OfferMaster) (newId : Nat)
    (stat : String) (br : List Branch) (ca : Nat) :
    (∀ vf vt, d.valid_from = some vf → d.valid_to = some vt → vt < vf →
        isAccepted d = false ∧ createOffer offers d newId stat br ca = (offers, false)) ∧
    (d.offer_start_time.isSome ≠ d.offer_end_time.isSome →
        isAccepted d = false ∧ createOffer offers d newId stat br ca = (offers, false)) ∧
    (∀ s e, d.offer_start_time = some s → d.offer_end_time = some e → e ≤ s →
        isAccepted d = false ∧ createOffer offers d newId stat br ca = (offers, false)) ∧
    (∀ v, d.valid_from = some v → d.valid_to = some v → windowOk d = true →
        isAccepted d = true) := by
  obtain ⟨vfo, vto, oso, oeo⟩ := d
  refine ⟨?_, ?_, ?_, ?_⟩
  · intro vf vt h1 h2 h3
    simp only at h1 h2
    subst h1
    subst h2
    have hrej : isAccepted
        { valid_from := some vf, valid_to := some vt,
          offer_start_time := oso, offer_end_time := oeo } = false := by
      unfold isAccepted validate
      simp [h3]
    exact ⟨hrej, createOffer_rejected _ _ _ _ _ _ hrej⟩
  · intro hne
    simp only at hne
    have hrej : isAccepted
        { valid_from := vfo, valid_to := vto,
          offer_start_time := oso, offer_end_time := oeo } = false := by
      unfold isAccepted validate validateTimes
      rcases oso with _ | s <;> rcases oeo with _ | e <;> simp at hne <;>
        rcases vfo with _ | vf <;> rcases vto with _ | vt <;> simp <;> split_ifs <;> simp
    exact ⟨hrej, createOffer_rejected _ _ _ _ _ _ hrej⟩
  · intro s e h1 h2 h3
    simp only at h1 h2
    subst h1
    subst h2
    have hrej : isAccepted
        { valid_from := vfo, valid_to := vto,
          offer_start_time := some s, offer_end_time := some e } = false := by
      unfold isAccepted validate validateTimes
      rcases vfo with _ | vf <;> rcases vto with _ | vt
      · simp [h3]
      · simp [h3]
      · simp [h3]
      · simp only [h3]
        split_ifs <;> simp
    exact ⟨hrej, createOffer_rejected _ _ _ _ _ _ hrej⟩
  · intro v h1 h2 hwin
    simp only at h1 h2
    subst h1
    subst h2
    unfold windowOk at hwin
    unfold isAccepted validate validateTimes
    rcases oso with _ | s <;> rcases oeo with _ | e
    · simp
    · simp at hwin
    · simp at hwin
    · have hse : s < e := by simpa using hwin
      have h3 : ¬ (v < v) := by omega
      have h4 : ¬ (e ≤ s) := by omega
      simp [h3, h4]

/-- C8 witness: the input with `valid_to` before `valid_from` is
rejected and not persisted; the single-day input with a 15:00-17:00
window is accepted. -/
theorem C8_witness :
    (isAccepted d8bad = false ∧ createOffer [] d8bad 1 "active" [] 0 = ([], false)) ∧
    isAccepted d8good = true :=
  ⟨(C8_validation_rules d8bad [] 1 "active" [] 0).1 5 3 rfl rfl (by decide),
   (C8_validation_rules d8good [] 1 "active" [] 0).2.2.2 5 rfl rfl (by decide)⟩
